import Mathlib

/-!
Verification of the sitemap audit utilities: the CSV range auditor
(auditSitemapURLs.js, automateAudits.js) and the XML sitemap validator
(validateSitemapFiles.js).  JavaScript mutable state is embedded as
explicit state passing; external collaborators (axios, node-fetch, the
WHATWG URL parser, Date parsing, parseFloat) are modelled as oracles
passed in as parameters, since their internals are not part of this
repository.
-/

namespace SitemapAudit

/-! ## auditSitemapURLs.js: the bounded concurrency sweep -/

/-- One row of the non-200 output CSV: a URL together with either the HTTP
status or the error message recorded for it (the results array of
auditSitemapURLs). -/
structure OutRow where
  url : String
  status : Option Nat
  error : Option String
deriving DecidableEq

/-- The mutable per-execution state of auditSitemapURLs: accumulated
non-200 rows, the two counters, and the shared early-stop flag. -/
structure SweepState where
  results : List OutRow
  count404 : Nat
  non404ErrorCount : Nat
  shouldStop : Bool
deriving DecidableEq

/-- The state at the start of a sweep. -/
def initSweepState : SweepState := ⟨[], 0, 0, false⟩

/-- Outcome of one axios.get call as checkUrl observes it: the server
answered with some status, or no response arrived (error.request), or the
request could not even be constructed (setup error with a message). -/
inductive HttpOutcome where
  | response (status : Nat)
  | noResponse
  | setupError (msg : String)
deriving DecidableEq

/-- non404ErrorCount++ followed by the early-stop test that appears after
every such increment in checkUrl:
maxNon404Results > 0 && non404ErrorCount >= maxNon404Results. -/
def bumpNon404 (maxNon404Results : Nat) (st : SweepState) : SweepState :=
  let n := st.non404ErrorCount + 1
  { st with
      non404ErrorCount := n
      shouldStop := st.shouldStop ||
        (decide (0 < maxNon404Results) && decide (maxNon404Results ≤ n)) }

/-- Record a non-200 HTTP status row and bump the matching counter.  This
is the shared body of the response.status !== 200 branch and of the
error.response branch of checkUrl, which are textually identical. -/
def recordHttpStatus (maxNon404Results : Nat) (st : SweepState)
    (url : String) (s : Nat) : SweepState :=
  let st1 := { st with results := st.results ++ [⟨url, some s, none⟩] }
  if s = 404 then { st1 with count404 := st1.count404 + 1 }
  else bumpNon404 maxNon404Results st1

/-- The body of checkUrl after the shouldStop guard.  axios resolves only
for 2xx statuses (its default validateStatus), so a received status s goes
through the try branch when 200 <= s < 300 and through the catch branch
with error.response set otherwise. -/
def recordOutcome (maxNon404Results : Nat) (st : SweepState) (url : String) :
    HttpOutcome → SweepState
  | .response s =>
      if 200 ≤ s ∧ s < 300 then
        if s = 200 then st else recordHttpStatus maxNon404Results st url s
      else recordHttpStatus maxNon404Results st url s
  | .noResponse =>
      bumpNon404 maxNon404Results
        { st with results := st.results ++ [⟨url, none, some "No response received"⟩] }
  | .setupError m =>
      bumpNon404 maxNon404Results
        { st with results := st.results ++ [⟨url, none, some m⟩] }

/-- checkUrl: returns immediately when shouldStop is already set, otherwise
performs the request and records its classification. -/
def checkUrl (maxNon404Results : Nat) (st : SweepState) (url : String)
    (o : HttpOutcome) : SweepState :=
  if st.shouldStop then st else recordOutcome maxNon404Results st url o

/-- A whole sweep: checkUrl folded over the checked URLs, each paired with
the outcome its request produced. -/
def runSweep (maxNon404Results : Nat) (inputs : List (String × HttpOutcome))
    (st : SweepState) : SweepState :=
  inputs.foldl (fun s p => checkUrl maxNon404Results s p.1 p.2) st

/-- The invariant of a sweep state asserted by claim C1: the two counters
add up to the number of recorded rows, and no recorded row carries HTTP
status 200. -/
def sweepInv (st : SweepState) : Prop :=
  st.count404 + st.non404ErrorCount = st.results.length ∧
  ∀ r ∈ st.results, r.status ≠ some 200

/-- The CSV data handler of auditSitemapURLs: rowNumber++ for every raw
row, skip the header (rowNumber 1), and enqueue a check for every data row
whose 1-based data index rowNumber - 1 lies in [firstRow, lastRow].  The
handler's shouldStop guard is accounted for separately: with
maxNon404Results = 0 the flag never becomes true. -/
def streamRows : List String → Nat → Nat → Nat → List String
  | [], _, _, _ => []
  | r :: rest, rowNumber, firstRow, lastRow =>
    if 1 < rowNumber + 1 then
      if firstRow ≤ rowNumber + 1 - 1 ∧ rowNumber + 1 - 1 ≤ lastRow then
        r :: streamRows rest (rowNumber + 1) firstRow lastRow
      else streamRows rest (rowNumber + 1) firstRow lastRow
    else streamRows rest (rowNumber + 1) firstRow lastRow

/-- The URLs auditSitemapURLs enqueues for a range, streaming the input
CSV from its first (header) row. -/
def auditTasks (rows : List String) (firstRow lastRow : Nat) : List String :=
  streamRows rows 0 firstRow lastRow

/-! ## The concurrent sweep as an event system (for the early-stop claim)

p-limit dispatches checkUrl bodies concurrently, so the shouldStop guard
at the top of checkUrl and the recording at its end are separated by the
await of the HTTP request.  We model this split with explicit start and
finish events: a check that starts (reaches the guard) while shouldStop
is false issues its request and becomes in-flight; its finish applies the
recording logic.  A check that starts after shouldStop became true does
nothing at all, and a finish for a check that never got in flight is a
no-op. -/

/-- State of the concurrent sweep: the shared sweep state plus the ids of
checks that are in flight (request issued, recording pending) and the ids
of all checks that ever issued a request. -/
structure AsyncState where
  base : SweepState
  inflight : List Nat
  requested : List Nat
deriving DecidableEq

/-- The concurrent sweep's initial state. -/
def initAsyncState : AsyncState := ⟨initSweepState, [], []⟩

/-- Events of the concurrent sweep: a check body starting (the shouldStop
guard), and a check body resuming after its HTTP request finished. -/
inductive Ev where
  | start (i : Nat) (url : String)
  | finish (i : Nat) (url : String) (o : HttpOutcome)
deriving DecidableEq

/-- One step of the concurrent sweep. -/
def stepEv (maxNon404Results : Nat) (st : AsyncState) : Ev → AsyncState
  | .start i _ =>
      if st.base.shouldStop then st
      else { st with
              inflight := st.inflight ++ [i]
              requested := st.requested ++ [i] }
  | .finish i url o =>
      if i ∈ st.inflight then
        { st with
            base := recordOutcome maxNon404Results st.base url o
            inflight := st.inflight.erase i }
      else st

/-- Run the concurrent sweep over a trace of events. -/
def runEvents (maxNon404Results : Nat) (evs : List Ev) (st : AsyncState) :
    AsyncState :=
  evs.foldl (stepEv maxNon404Results) st

/-- The early-stop invariant: the stop flag is set exactly when the
non-404 error counter has reached the (positive) threshold. -/
def stopInv (maxNon404Results : Nat) (st : AsyncState) : Prop :=
  st.base.shouldStop = true ↔ maxNon404Results ≤ st.base.non404ErrorCount

/-! ## automateAudits.js: the batch orchestrator -/

/-- A CSV row as csv-parser hands it to the orchestrator: an ordered
association of column name to cell value (the key order is the column
order). -/
abbrev Row := List (String × String)

/-- Read a cell of a row; none models a column absent from the object. -/
def getKey : Row → String → Option String
  | [], _ => none
  | (k, v) :: rest, key => if k = key then some v else getKey rest key

/-- JavaScript object assignment obj[k] = v: overwrite the value in place
when the key exists (preserving key order), append otherwise. -/
def setKey {α : Type} : List (String × α) → String → α → List (String × α)
  | [], k, v => [(k, v)]
  | (k', v') :: rest, k, v =>
    if k' = k then (k, v) :: rest else (k', v') :: setKey rest k v

/-- JavaScript whitespace as String.prototype.trim removes it. -/
def jsWhitespace (c : Char) : Bool :=
  (c == ' ') || (c == '\t') || (c == '\n') || (c == '\r')

/-- s.trim() === '' — the string trims away to nothing, i.e. every
character is whitespace (in particular s may be empty). -/
def trimsBlank (s : String) : Bool := s.data.all jsWhitespace

/-- The skip test of the orchestrator loop, negated: the loop does
continue when row['404s'] is truthy and trims to a nonempty string, so a
row is audited exactly when its '404s' cell is missing, empty, or
whitespace.  Note that the code never consults 'Non-404 Errors' here. -/
def eligibleRow (row : Row) : Bool :=
  match getKey row "404s" with
  | none => true
  | some s => trimsBlank s

/-- The claim's eligibility predicate, modelled from the spec's words:
a range is pending when its recorded counts — both '404s' and
'Non-404 Errors' — are blank (empty or whitespace).  Kept separate from
eligibleRow, which is what the code actually tests, so the two can be
compared. -/
def bothCountsBlank (row : Row) : Bool :=
  (match getKey row "404s" with
   | none => true
   | some s => trimsBlank s) &&
  (match getKey row "Non-404 Errors" with
   | none => true
   | some s => trimsBlank s)

/-- One iteration of the orchestrator loop for the row at (0-based) index
i: skip when not eligible; otherwise invoke the range auditor, and on
success write both counts back into the row, on failure leave the row
untouched (the catch branch only logs). -/
def stepRow (audit : Nat → Except String (Nat × Nat)) (i : Nat) (row : Row) :
    Row :=
  if eligibleRow row then
    match audit i with
    | .ok (c404, nonErr) =>
        setKey (setKey row "404s" (toString c404)) "Non-404 Errors"
          (toString nonErr)
    | .error _ => row
  else row

/-- The orchestrator loop from index i: every row is attempted in list
order, each with its own try/catch, and the indices for which the range
auditor was invoked are collected. -/
def runBatchA (audit : Nat → Except String (Nat × Nat)) :
    Nat → List Row → List Row × List Nat
  | _, [] => ([], [])
  | i, row :: rest =>
    let res := runBatchA audit (i + 1) rest
    (stepRow audit i row :: res.1,
     if eligibleRow row then i :: res.2 else res.2)

/-- The indices of the rows the code's skip test leaves pending, counted
from i, in list order. -/
def pendingIndicesFrom : Nat → List Row → List Nat
  | _, [] => []
  | i, row :: rest =>
    if eligibleRow row then i :: pendingIndicesFrom (i + 1) rest
    else pendingIndicesFrom (i + 1) rest

/-- The header order the orchestrator captures before the loop:
Object.keys of the first row. -/
def batchHeaders : List Row → List String
  | [] => []
  | row :: _ => row.map Prod.fst

/-- csv-writer writing one record against a fixed header list: one cell
per header, in header order. -/
def writeRow (headers : List String) (row : Row) : Row :=
  headers.map (fun h => (h, (getKey row h).getD ""))

/-- A concrete range auditor outcome for witnesses: always succeeds. -/
def audit0 : Nat → Except String (Nat × Nat) := fun _ => .ok (3, 1)

/-- A concrete grouping row whose '404s' cell is blank but whose
'Non-404 Errors' cell is not. -/
def rowC3 : Row :=
  [("Number", "01"), ("State", "al"), ("Type", "counties"),
   ("First Row", "1"), ("Last Row", "2"), ("404s", ""),
   ("Non-404 Errors", "7")]

/-- The one-row grouping list built from rowC3. -/
def rowsC3 : List Row := [rowC3]

/-! ## validateSitemapFiles.js: the sitemap content validator -/

/-- Oracles for the external checks the validator delegates: isValidUrl
wraps the WHATWG URL parser, isValidDate ends in a Date parse, and the
priority check uses parseFloat.  The claims verified here hold for every
choice of these oracles. -/
structure ValidatorEnv where
  urlOk : String → Bool
  dateOk : String → Bool
  priorityOk : String → Bool

/-- An oracle environment that accepts everything (used for concrete
evaluations). -/
def env0 : ValidatorEnv := ⟨fun _ => true, fun _ => true, fun _ => true⟩

/-- A parsed sitemap-index child entry.  none models an absent element and
the empty string a present but empty one; JavaScript treats both as
falsy. -/
structure SitemapEntry where
  loc : Option String
  lastmod : Option String
deriving DecidableEq

/-- A parsed url-set entry with its optional fields.  The loc value is the
string the code extracts via url.loc['#text'] || url.loc. -/
structure UrlEntry where
  loc : Option String
  lastmod : Option String
  changefreq : Option String
  priority : Option String
deriving DecidableEq

/-- A fetched payload as validateContent classifies it: not well-formed
XML, an XML parser exception, a sitemap index, a url set, or some other
root element. -/
inductive XmlDoc where
  | invalidXml (info : String)
  | parseFailure (msg : String)
  | sitemapIndex (xmlns : Option String) (sitemaps : List SitemapEntry)
  | urlset (xmlns : Option String) (urls : List UrlEntry)
  | unknownRoot
deriving DecidableEq

/-- The result tree of a validation: valid flag, own errors and warnings,
and (only ever set by the recursive walker) the listed and the traversed
children. -/
inductive ValidationResult where
  | mk (valid : Bool) (errors : List String) (warnings : List String)
      (childSitemaps : Option (List String))
      (childResults : Option (List (String × ValidationResult)))

/-- The valid flag of a result. -/
def ValidationResult.valid : ValidationResult → Bool
  | .mk v _ _ _ _ => v

/-- The errors of a result. -/
def ValidationResult.errors : ValidationResult → List String
  | .mk _ es _ _ _ => es

/-- The warnings of a result. -/
def ValidationResult.warnings : ValidationResult → List String
  | .mk _ _ ws _ _ => ws

/-- The childSitemaps field of a result. -/
def ValidationResult.childSitemaps : ValidationResult → Option (List String)
  | .mk _ _ _ cs _ => cs

/-- The childResults field of a result. -/
def ValidationResult.childResults :
    ValidationResult → Option (List (String × ValidationResult))
  | .mk _ _ _ _ cr => cr

/-- getResults: valid is derived as errors.length === 0; the result
carries no childSitemaps and no childResults fields. -/
def getResults (errors warnings : List String) : ValidationResult :=
  .mk errors.isEmpty errors warnings none none

/-- The recursive walker's mutation of an already computed result: append
the truncation warning (if any) and attach the traversed children.  The
valid flag was computed earlier, inside getResults, and is not revised. -/
def attachChildren (res : ValidationResult) (extraWarnings : List String)
    (children : List (String × ValidationResult)) : ValidationResult :=
  .mk res.valid res.errors (res.warnings ++ extraWarnings)
    res.childSitemaps (some children)

/-- VALID_CHANGEFREQ. -/
def VALID_CHANGEFREQ : List String :=
  ["always", "hourly", "daily", "weekly", "monthly", "yearly", "never"]

/-- MAX_URLS_PER_SITEMAP. -/
def MAX_URLS_PER_SITEMAP : Nat := 50000

/-- MAX_SITEMAP_SIZE, in bytes. -/
def MAX_SITEMAP_SIZE : Nat := 50 * 1024 * 1024

/-- Substring search over character lists (the semantics of JavaScript's
String.prototype.includes). -/
def includesAux (sub : List Char) : List Char → Bool
  | [] => sub.isEmpty
  | c :: rest => sub.isPrefixOf (c :: rest) || includesAux sub rest

/-- s.includes(sub) for strings. -/
def jsIncludes (s sub : String) : Bool :=
  includesAux sub.data s.data

/-- Claim-side notion, modelled from the spec's words: the scan detects an
ampersand that does not start the five-character escape sequence amp
escape. -/
def bareAmpAux : List Char → Bool
  | [] => false
  | c :: rest =>
    (c == '&' && !(['a', 'm', 'p', ';'].isPrefixOf rest)) || bareAmpAux rest

/-- A string contains an ampersand that is not part of an escaped
ampersand (the claim's reading of "bare ampersand"). -/
def hasBareAmp (s : String) : Bool := bareAmpAux s.data

/-- JavaScript falsiness of an optional string field: absent or empty. -/
def jsMissing : Option String → Bool
  | none => true
  | some s => s.data.isEmpty

/-- The error pushed for a url-set entry without a usable loc. -/
def missingLocMsg (i : Nat) : String :=
  "URL " ++ toString (i + 1) ++ ": Missing required <loc> element"

/-- The URL format check of a url-set entry. -/
def fmtError (env : ValidatorEnv) (i : Nat) (loc : String) : List String :=
  if env.urlOk loc then []
  else ["URL " ++ toString (i + 1) ++ ": Invalid URL format: " ++ loc]

/-- The unencoded space check of a url-set entry. -/
def spaceError (i : Nat) (loc : String) : List String :=
  if jsIncludes loc " " then
    ["URL " ++ toString (i + 1) ++ ": Contains spaces (should be encoded): " ++ loc]
  else []

/-- The ampersand check of a url-set entry, exactly as the code performs
it: loc.includes of the ampersand and not loc.includes of the escaped
form. -/
def ampError (i : Nat) (loc : String) : List String :=
  if jsIncludes loc "&" && !(jsIncludes loc "&amp;") then
    ["URL " ++ toString (i + 1) ++ ": Unescaped ampersand: " ++ loc]
  else []

/-- The duplicate check against the running urlSet. -/
def dupWarning (i : Nat) (loc : String) (seen : List String) : List String :=
  if seen.contains loc then
    ["URL " ++ toString (i + 1) ++ ": Duplicate URL: " ++ loc]
  else []

/-- The optional lastmod check (skipped when the field is falsy). -/
def lastmodWarning (env : ValidatorEnv) (i : Nat) (lm : Option String) :
    List String :=
  match lm with
  | none => []
  | some s =>
    if s.data.isEmpty then []
    else if env.dateOk s then []
    else ["URL " ++ toString (i + 1) ++ ": Invalid lastmod date: " ++ s]

/-- The optional changefreq check (skipped when the field is falsy). -/
def changefreqWarning (i : Nat) (cf : Option String) : List String :=
  match cf with
  | none => []
  | some s =>
    if s.data.isEmpty then []
    else if VALID_CHANGEFREQ.contains s then []
    else ["URL " ++ toString (i + 1) ++ ": Invalid changefreq: " ++ s]

/-- The optional priority check (skipped when the field is falsy). -/
def priorityWarning (env : ValidatorEnv) (i : Nat) (p : Option String) :
    List String :=
  match p with
  | none => []
  | some s =>
    if s.data.isEmpty then []
    else if env.priorityOk s then []
    else ["URL " ++ toString (i + 1) ++ ": Invalid priority: " ++ s]

/-- The body of the urls.forEach callback for one entry: a missing loc
records its error and returns at once; otherwise the URL format, the
duplicate set, the optional fields and the space and ampersand checks all
run, and the loc joins the urlSet.  Returns the pushed errors, the pushed
warnings, and the updated urlSet. -/
def urlEntryChecks (env : ValidatorEnv) (i : Nat) (seen : List String)
    (u : UrlEntry) : List String × List String × List String :=
  if jsMissing u.loc then ([missingLocMsg i], [], seen)
  else
    let loc := u.loc.getD ""
    (fmtError env i loc ++ spaceError i loc ++ ampError i loc,
     dupWarning i loc seen ++ lastmodWarning env i u.lastmod ++
       changefreqWarning i u.changefreq ++ priorityWarning env i u.priority,
     if seen.contains loc then seen else seen ++ [loc])

/-- urls.forEach over the whole entry list, threading the index and the
urlSet. -/
def urlsetEntriesFold (env : ValidatorEnv) :
    Nat → List String → List UrlEntry → List String × List String
  | _, _, [] => ([], [])
  | i, seen, u :: rest =>
    let c := urlEntryChecks env i seen u
    let r := urlsetEntriesFold env (i + 1) c.2.2 rest
    (c.1 ++ r.1, c.2.1 ++ r.2)

/-- The namespace check: the xmlns attribute is falsy or does not contain
the sitemaps.org marker. -/
def xmlnsBad (x : Option String) : Bool :=
  match x with
  | none => true
  | some s => s.data.isEmpty || !(jsIncludes s "sitemaps.org")

/-- validateUrlset, with pre the errors already recorded by
validateContent (the size check). -/
def validateUrlset (env : ValidatorEnv) (pre : List String)
    (xmlns : Option String) (urls : List UrlEntry) : ValidationResult :=
  let nsErr := if xmlnsBad xmlns then ["Missing or invalid xmlns namespace"] else []
  let emptyWarn := if urls.length = 0 then ["Sitemap contains no URLs"] else []
  let countErr :=
    if MAX_URLS_PER_SITEMAP < urls.length then
      ["Too many URLs (" ++ toString urls.length ++ "). Maximum is " ++
        toString MAX_URLS_PER_SITEMAP]
    else []
  let folded := urlsetEntriesFold env 0 [] urls
  getResults (pre ++ nsErr ++ countErr ++ folded.1) (emptyWarn ++ folded.2)

/-- The per-entry checks of a sitemap-index entry: missing loc, else URL
validity; then the optional lastmod. -/
def indexEntryChecks (env : ValidatorEnv) (i : Nat) (e : SitemapEntry) :
    List String × List String :=
  let errs :=
    if jsMissing e.loc then
      ["Sitemap " ++ toString (i + 1) ++ ": Missing required <loc> element"]
    else if env.urlOk (e.loc.getD "") then []
    else ["Sitemap " ++ toString (i + 1) ++ ": Invalid URL: " ++ e.loc.getD ""]
  let warns :=
    match e.lastmod with
    | none => []
    | some s =>
      if s.data.isEmpty then []
      else if env.dateOk s then []
      else ["Sitemap " ++ toString (i + 1) ++ ": Invalid lastmod date: " ++ s]
  (errs, warns)

/-- sitemaps.forEach over the index entries. -/
def indexEntriesFold (env : ValidatorEnv) :
    Nat → List SitemapEntry → List String × List String
  | _, [] => ([], [])
  | i, e :: rest =>
    let c := indexEntryChecks env i e
    let r := indexEntriesFold env (i + 1) rest
    (c.1 ++ r.1, c.2 ++ r.2)

/-- validateSitemapIndex.  It returns this.getResults() directly: in
particular it does not put the child locations into the result — no
childSitemaps field is ever produced. -/
def validateSitemapIndex (env : ValidatorEnv) (pre : List String)
    (xmlns : Option String) (sitemaps : List SitemapEntry) : ValidationResult :=
  let nsErr := if xmlnsBad xmlns then ["Missing or invalid xmlns namespace"] else []
  let emptyWarn :=
    if sitemaps.length = 0 then ["Sitemap index contains no sitemaps"] else []
  let folded := indexEntriesFold env 0 sitemaps
  getResults (pre ++ nsErr ++ folded.1) (emptyWarn ++ folded.2)

/-- validateContent: the size ceiling first (error but continue), then the
well-formedness and parse short circuits, then dispatch on the root
element.  The 50MB message's megabyte rendering is abbreviated, since
floating point formatting is not modelled. -/
def validateContent (env : ValidatorEnv) (sizeBytes : Nat) (doc : XmlDoc) :
    ValidationResult :=
  let pre :=
    if MAX_SITEMAP_SIZE < sizeBytes then ["File size exceeds 50MB limit"] else []
  match doc with
  | .invalidXml info => getResults (pre ++ ["Invalid XML: " ++ info]) []
  | .parseFailure m => getResults (pre ++ ["XML parsing error: " ++ m]) []
  | .sitemapIndex x sitemaps => validateSitemapIndex env pre x sitemaps
  | .urlset x urls => validateUrlset env pre x urls
  | .unknownRoot =>
      getResults (pre ++ ["Root element must be either <urlset> or <sitemapindex>"]) []

/-- What fetching a URL yields: a thrown fetch, a non-ok HTTP response, or
a body of a given byte size that parses (or fails to parse) as modelled by
XmlDoc. -/
inductive FetchOutcome where
  | fail (msg : String)
  | httpError (status : Nat) (statusText : String)
  | ok (sizeBytes : Nat) (doc : XmlDoc)

/-- validateUrl of SitemapValidator, with a structural fuel argument to
express the recursion (each recursive call is guarded by
depth < maxDepth, so fuel maxDepth + 1 is never exhausted from depth 0).
Fetch and HTTP failures short-circuit; otherwise validateContent runs and,
when recursion is enabled, this is a sitemap index that listed children,
and depth is below maxDepth, the first maxChildSitemaps children are each
validated by a fresh validator and stored under their URL, with the
truncation warning appended whenever some children were cut off. -/
def validateUrlGo (env : ValidatorEnv) (world : String → FetchOutcome)
    (recursive : Bool) (maxDepth : Nat) :
    Nat → Nat → String → ValidationResult
  | 0, _, _ => getResults [] []
  | fuel + 1, depth, url =>
    match world url with
    | .fail m => getResults ["Failed to fetch URL: " ++ m] []
    | .httpError s t => getResults ["HTTP " ++ toString s ++ ": " ++ t] []
    | .ok size doc =>
      let results := validateContent env size doc
      match results.childSitemaps with
      | none => results
      | some cs =>
        if recursive && decide (0 < cs.length) && decide (depth < maxDepth) then
          let total := cs.length
          let maxChild := if depth = 0 then total else 10
          let toTraverse := cs.take maxChild
          let children := toTraverse.foldl
            (fun acc cu =>
              setKey acc cu
                (validateUrlGo env world recursive maxDepth fuel (depth + 1) cu))
            []
          let extraW :=
            if toTraverse.length < total then
              ["Only validated " ++ toString maxChild ++ " of " ++
                toString total ++ " child sitemaps"]
            else []
          attachChildren results extraW children
        else results

/-- validateUrl with the default fuel. -/
def validateUrl (env : ValidatorEnv) (world : String → FetchOutcome)
    (recursive : Bool) (depth maxDepth : Nat) (url : String) :
    ValidationResult :=
  validateUrlGo env world recursive maxDepth (maxDepth + 1) depth url

/-- The sitemap protocol namespace. -/
def sitemapNS : String := "http://www.sitemaps.org/schemas/sitemap/0.9"

/-- Twelve child entries for the depth-0 fan-out scenario. -/
def idx6Entries : List SitemapEntry :=
  (List.range 12).map
    (fun i => ⟨some ("http://site/c" ++ toString i ++ ".xml"), none⟩)

/-- A world whose index document lists twelve children, each of which is a
well-formed url set. -/
def world6 : String → FetchOutcome := fun url =>
  if url = "http://site/index.xml" then
    .ok 500 (.sitemapIndex (some sitemapNS) idx6Entries)
  else
    .ok 200 (.urlset (some sitemapNS) [⟨some "http://site/page", none, none, none⟩])

/-- A world whose root document is an index of two child indexes, each of
which lists a further leaf url set: the maxDepth 1 scenario of the
depth-exhaustion claim. -/
def world7 : String → FetchOutcome := fun url =>
  if url = "http://site/root.xml" then
    .ok 300 (.sitemapIndex (some sitemapNS)
      [⟨some "http://site/sub0.xml", none⟩, ⟨some "http://site/sub1.xml", none⟩])
  else if url = "http://site/sub0.xml" then
    .ok 250 (.sitemapIndex (some sitemapNS) [⟨some "http://site/leaf0.xml", none⟩])
  else if url = "http://site/sub1.xml" then
    .ok 250 (.sitemapIndex (some sitemapNS) [⟨some "http://site/leaf1.xml", none⟩])
  else
    .ok 200 (.urlset (some sitemapNS) [⟨some "http://site/page", none, none, none⟩])

/-- The location of the ampersand counterexample: one escaped ampersand
followed by a bare one. -/
def locC9 : String := "http://a.com/x&amp;y&z"

/-- A url-set entry holding locC9. -/
def entryC9 : UrlEntry := ⟨some locC9, none, none, none⟩

/-- A url-set entry with no loc but with every optional field present. -/
def entryC10 : UrlEntry := ⟨none, some "2024-01-01", some "daily", some "0.5"⟩

/-- A concrete sweep input for witnesses: a 404, a transport failure, and
a clean 200. -/
def insC1 : List (String × HttpOutcome) :=
  [("http://a/1", .response 404), ("http://a/2", .noResponse),
   ("http://a/3", .response 200)]

/-- A concrete event trace for the early-stop witness. -/
def evsC5 : List Ev :=
  [.start 0 "http://a/1", .finish 0 "http://a/1" .noResponse,
   .start 1 "http://a/2"]

/-- A concrete stopped concurrent-sweep state with check 7 in flight. -/
def stC5 : AsyncState := ⟨⟨[], 0, 1, true⟩, [7], [7]⟩

/-- A grouping row whose counts were already filled in by a prior run. -/
def rowDone : Row :=
  [("Number", "02"), ("State", "ak"), ("Type", "positions"),
   ("First Row", "3"), ("Last Row", "4"), ("404s", "3"),
   ("Non-404 Errors", "1")]

/-- A grouping row still pending (both count cells empty). -/
def rowBlank : Row :=
  [("Number", "03"), ("State", "az"), ("Type", "counties"),
   ("First Row", "5"), ("Last Row", "6"), ("404s", ""),
   ("Non-404 Errors", "")]

/-- A range auditor that always throws. -/
def auditFailAll : Nat → Except String (Nat × Nat) :=
  fun _ => .error "network down"

/-- A location with a single, genuinely bare ampersand. -/
def locC9w : String := "http://a.com/a&b"

/-- A url-set entry holding locC9w. -/
def uC9w : UrlEntry := ⟨some locC9w, none, none, none⟩

/-! ## Theorems -/

theorem recordHttpStatus_inv {st : SweepState} (T : Nat) (url : String)
    {s : Nat} (h : sweepInv st) (hs : s ≠ 200) :
    sweepInv (recordHttpStatus T st url s) := by
  obtain ⟨h1, h2⟩ := h
  unfold recordHttpStatus bumpNon404
  split
  · refine ⟨by simp [List.length_append]; omega, ?_⟩
    intro r hr
    rcases List.mem_append.mp hr with h' | h'
    · exact h2 r h'
    · simp only [List.mem_singleton] at h'
      subst h'
      simp [hs]
  · refine ⟨by simp [List.length_append]; omega, ?_⟩
    intro r hr
    rcases List.mem_append.mp hr with h' | h'
    · exact h2 r h'
    · simp only [List.mem_singleton] at h'
      subst h'
      simp [hs]

theorem bump_append_inv {st : SweepState} (T : Nat) (row : OutRow)
    (hrow : row.status ≠ some 200) (h : sweepInv st) :
    sweepInv (bumpNon404 T { st with results := st.results ++ [row] }) := by
  obtain ⟨h1, h2⟩ := h
  constructor
  · simp only [bumpNon404, List.length_append, List.length_singleton]
    omega
  · intro r hr
    simp only [bumpNon404] at hr
    rcases List.mem_append.mp hr with h' | h'
    · exact h2 r h'
    · simp only [List.mem_singleton] at h'
      subst h'
      exact hrow

theorem checkUrl_inv (T : Nat) {st : SweepState} (url : String)
    (o : HttpOutcome) (h : sweepInv st) : sweepInv (checkUrl T st url o) := by
  unfold checkUrl
  split
  · exact h
  · cases o with
    | response s =>
      simp only [recordOutcome]
      split
      · split
        · exact h
        · exact recordHttpStatus_inv T url h (by assumption)
      · refine recordHttpStatus_inv T url h ?_
        rename_i hno
        omega
    | noResponse =>
      simp only [recordOutcome]
      exact bump_append_inv T ⟨url, none, some "No response received"⟩ (by simp) h
    | setupError m =>
      simp only [recordOutcome]
      exact bump_append_inv T ⟨url, none, some m⟩ (by simp) h

theorem runSweep_inv (T : Nat) (inputs : List (String × HttpOutcome))
    {st : SweepState} (h : sweepInv st) : sweepInv (runSweep T inputs st) := by
  induction inputs generalizing st with
  | nil => exact h
  | cons p rest ih => exact ih (checkUrl_inv T p.1 p.2 h)

/-- C1: in every sweep performed by auditSitemapURLs, the final count404
plus non404ErrorCount equals the number of recorded (non-200) rows, and no
row recording an HTTP status 200 ever appears among the outcomes. -/
theorem sweep_counts_match_recorded_outcomes (T : Nat)
    (inputs : List (String × HttpOutcome)) :
    (runSweep T inputs initSweepState).count404 +
        (runSweep T inputs initSweepState).non404ErrorCount =
      (runSweep T inputs initSweepState).results.length ∧
    ∀ r ∈ (runSweep T inputs initSweepState).results, r.status ≠ some 200 :=
  runSweep_inv T inputs ⟨rfl, by intro r hr; simp [initSweepState] at hr⟩

theorem sweep_counts_match_recorded_outcomes_witness :
    ((runSweep 3 insC1 initSweepState).count404 +
        (runSweep 3 insC1 initSweepState).non404ErrorCount =
      (runSweep 3 insC1 initSweepState).results.length) ∧
    (OutRow.mk "http://a/1" (some 404) none).status ≠ some 200 :=
  ⟨(sweep_counts_match_recorded_outcomes 3 insC1).1,
   (sweep_counts_match_recorded_outcomes 3 insC1).2
     ⟨"http://a/1", some 404, none⟩ (by decide)⟩

theorem checkUrl_zero_shouldStop (st : SweepState) (url : String)
    (o : HttpOutcome) : (checkUrl 0 st url o).shouldStop = st.shouldStop := by
  unfold checkUrl
  split
  · rfl
  · cases o with
    | response s =>
      simp only [recordOutcome, recordHttpStatus, bumpNon404]
      split
      · split
        · rfl
        · split <;> simp
      · split <;> simp
    | noResponse => simp [recordOutcome, bumpNon404]
    | setupError m => simp [recordOutcome, bumpNon404]

theorem runSweep_zero_shouldStop (inputs : List (String × HttpOutcome))
    (st : SweepState) : (runSweep 0 inputs st).shouldStop = st.shouldStop := by
  induction inputs generalizing st with
  | nil => rfl
  | cons p rest ih =>
    exact (ih (checkUrl 0 st p.1 p.2)).trans (checkUrl_zero_shouldStop st p.1 p.2)

theorem streamRows_data (d : List String) :
    ∀ (n f l : Nat), 1 ≤ n →
      streamRows d n f l = (d.drop (f - n)).take (l + 1 - max n f) := by
  induction d with
  | nil => intro n f l hn; simp [streamRows]
  | cons x rest ih =>
    intro n f l hn
    rw [streamRows]
    rw [if_pos (by omega : 1 < n + 1)]
    simp only [Nat.add_sub_cancel]
    by_cases hc : f ≤ n ∧ n ≤ l
    · rw [if_pos hc]
      rw [ih (n + 1) f l (by omega)]
      have hf : f - n = 0 := by omega
      have hf2 : f - (n + 1) = 0 := by omega
      have hm : max n f = n := by omega
      have hm2 : max (n + 1) f = n + 1 := by omega
      rw [hf, hf2, hm, hm2]
      simp only [List.drop_zero]
      have he : l + 1 - n = (l - n) + 1 := by omega
      rw [he, List.take_succ_cons]
      have he2 : l + 1 - (n + 1) = l - n := by omega
      rw [he2]
    · rw [if_neg hc]
      rw [ih (n + 1) f l (by omega)]
      by_cases hnf : n < f
      · have h4 : f - n = (f - (n + 1)) + 1 := by omega
        have h5 : max n f = f := by omega
        have h6 : max (n + 1) f = f := by omega
        rw [h4, h5, h6, List.drop_succ_cons]
      · have h7 : l + 1 - max (n + 1) f = 0 := by omega
        have h8 : l + 1 - max n f = 0 := by omega
        rw [h7, h8]
        simp

/-- C2: with early stop disabled (maxNon404Results = 0 never sets
shouldStop, third conjunct), auditSitemapURLs enqueues exactly the URLs
whose 1-based data-row index (header excluded) lies in the inclusive
range, which for an input with a header row and at least lastRow data rows
is exactly lastRow - firstRow + 1 URLs. -/
theorem range_selection_exact (rows : List String) (f l : Nat)
    (h1 : 1 ≤ f) (h2 : f ≤ l) (h3 : l + 1 ≤ rows.length) :
    auditTasks rows f l = ((rows.drop 1).drop (f - 1)).take (l - f + 1) ∧
    (auditTasks rows f l).length = l - f + 1 ∧
    (∀ inputs st, (runSweep 0 inputs st).shouldStop = st.shouldStop) := by
  have hsel : auditTasks rows f l = ((rows.drop 1).drop (f - 1)).take (l - f + 1) := by
    cases rows with
    | nil => simp at h3
    | cons r d =>
      unfold auditTasks
      rw [streamRows]
      rw [if_neg (by omega : ¬ 1 < 0 + 1)]
      rw [streamRows_data d 1 f l (by omega)]
      have hm : max 1 f = f := by omega
      have he : l + 1 - f = l - f + 1 := by omega
      rw [hm, he]
      simp
  refine ⟨hsel, ?_, fun inputs st => runSweep_zero_shouldStop inputs st⟩
  rw [hsel]
  cases rows with
  | nil => simp at h3
  | cons r d =>
    simp only [List.drop_one, List.tail_cons, List.length_take, List.length_drop]
    simp only [List.length_cons] at h3
    omega

theorem range_selection_exact_witness :
    auditTasks ["h", "a", "b", "c"] 2 3 =
        (((["h", "a", "b", "c"] : List String).drop 1).drop (2 - 1)).take (3 - 2 + 1) ∧
    (auditTasks ["h", "a", "b", "c"] 2 3).length = 3 - 2 + 1 ∧
    (∀ inputs st, (runSweep 0 inputs st).shouldStop = st.shouldStop) :=
  range_selection_exact ["h", "a", "b", "c"] 2 3 (by decide) (by decide)
    (by decide)

theorem bumpNon404_stopCond (T : Nat) (hT : 0 < T) (st : SweepState)
    (h : st.shouldStop = true ↔ T ≤ st.non404ErrorCount) :
    (bumpNon404 T st).shouldStop = true ↔
      T ≤ (bumpNon404 T st).non404ErrorCount := by
  simp only [bumpNon404, Bool.or_eq_true, Bool.and_eq_true, decide_eq_true_eq]
  rw [h]
  omega

theorem recordOutcome_stopCond (T : Nat) (hT : 0 < T) (st : SweepState)
    (url : String) (o : HttpOutcome)
    (h : st.shouldStop = true ↔ T ≤ st.non404ErrorCount) :
    (recordOutcome T st url o).shouldStop = true ↔
      T ≤ (recordOutcome T st url o).non404ErrorCount := by
  cases o with
  | response s =>
    simp only [recordOutcome]
    split
    · split
      · exact h
      · simp only [recordHttpStatus]
        split
        · exact h
        · exact bumpNon404_stopCond T hT _ h
    · simp only [recordHttpStatus]
      split
      · exact h
      · exact bumpNon404_stopCond T hT _ h
  | noResponse =>
    simp only [recordOutcome]
    exact bumpNon404_stopCond T hT _ h
  | setupError m =>
    simp only [recordOutcome]
    exact bumpNon404_stopCond T hT _ h

theorem stepEv_stopInv (T : Nat) (hT : 0 < T) (st : AsyncState) (e : Ev)
    (h : stopInv T st) : stopInv T (stepEv T st e) := by
  cases e with
  | start i url =>
    simp only [stepEv]
    split
    · exact h
    · exact h
  | finish i url o =>
    simp only [stepEv]
    split
    · exact recordOutcome_stopCond T hT st.base url o h
    · exact h

theorem runEvents_stopInv (T : Nat) (hT : 0 < T) (evs : List Ev)
    {st : AsyncState} (h : stopInv T st) : stopInv T (runEvents T evs st) := by
  induction evs generalizing st with
  | nil => exact h
  | cons e rest ih => exact ih (stepEv_stopInv T hT st e h)

/-- C5: with a positive early-stop threshold T, the stop flag is set
exactly once the non-404-error counter has reached T (first conjunct);
once it is set, a check whose body has not yet started issues no request
and never records anything (it is never added to the in-flight or the
requested set, second conjunct, and its later completion is a no-op,
third conjunct); a check already dispatched completes and its result is
recorded and counted regardless of the flag (fourth conjunct). -/
theorem early_stop_semantics (T : Nat) (hT : 0 < T) :
    (∀ evs : List Ev, stopInv T (runEvents T evs initAsyncState)) ∧
    (∀ st : AsyncState, ∀ i url, st.base.shouldStop = true →
        stepEv T st (.start i url) = st) ∧
    (∀ st : AsyncState, ∀ i url o, i ∉ st.inflight →
        stepEv T st (.finish i url o) = st) ∧
    (∀ st : AsyncState, ∀ i url o, i ∈ st.inflight →
        (stepEv T st (.finish i url o)).base = recordOutcome T st.base url o) := by
  refine ⟨?_, ?_, ?_, ?_⟩
  · intro evs
    refine runEvents_stopInv T hT evs ?_
    constructor
    · intro hfalse
      simp [initAsyncState, initSweepState] at hfalse
    · intro hle
      simp [initAsyncState, initSweepState] at hle
      exact absurd hle (by omega)
  · intro st i url hstop
    simp [stepEv, hstop]
  · intro st i url o hmem
    simp [stepEv, hmem]
  · intro st i url o hmem
    simp [stepEv, hmem]

theorem early_stop_semantics_witness :
    stopInv 1 (runEvents 1 evsC5 initAsyncState) ∧
    stepEv 1 stC5 (.start 2 "http://a/3") = stC5 ∧
    stepEv 1 stC5 (.finish 9 "http://a/9" .noResponse) = stC5 ∧
    (stepEv 1 stC5 (.finish 7 "http://a/7" (.response 503))).base =
      recordOutcome 1 stC5.base "http://a/7" (.response 503) :=
  ⟨(early_stop_semantics 1 (by decide)).1 evsC5,
   (early_stop_semantics 1 (by decide)).2.1 stC5 2 "http://a/3" (by decide),
   (early_stop_semantics 1 (by decide)).2.2.1 stC5 9 "http://a/9" .noResponse
     (by decide),
   (early_stop_semantics 1 (by decide)).2.2.2 stC5 7 "http://a/7"
     (.response 503) (by decide)⟩

theorem runBatchA_snd (audit : Nat → Except String (Nat × Nat))
    (rows : List Row) :
    ∀ n : Nat, (runBatchA audit n rows).2 = pendingIndicesFrom n rows := by
  induction rows with
  | nil => intro n; rfl
  | cons row rest ih =>
    intro n
    simp only [runBatchA, pendingIndicesFrom]
    by_cases he : eligibleRow row = true
    · simp [he, ih]
    · simp only [Bool.not_eq_true] at he
      simp [he, ih]

theorem pendingIndicesFrom_nil_of_done (rows : List Row)
    (h : ∀ r ∈ rows, eligibleRow r = false) :
    ∀ n : Nat, pendingIndicesFrom n rows = [] := by
  induction rows with
  | nil => intro n; rfl
  | cons row rest ih =>
    intro n
    simp only [pendingIndicesFrom]
    rw [h row (by simp)]
    simp only [Bool.false_eq_true, if_false]
    exact ih (fun r hr => h r (by simp [hr])) (n + 1)

/-- C3 counterexample: a row whose '404s' cell is blank but whose
'Non-404 Errors' cell holds "7" is audited by the orchestrator (its index
appears in the invoked list) although the claim's eligibility — both
recorded counts blank — does not hold for it. -/
theorem batch_eligibility_counterexample :
    (runBatchA audit0 0 rowsC3).2 = [0] ∧ bothCountsBlank rowC3 = false := by
  constructor
  · decide
  · decide

/-- C3 (amended): the orchestrator invokes the range auditor exactly for
the rows whose '404s' cell is blank (empty or whitespace) — the
'Non-404 Errors' cell is not consulted — in list order; over a list in
which every '404s' cell is non-blank it performs zero audits. -/
theorem batch_audits_pending_rows_in_order
    (audit : Nat → Except String (Nat × Nat)) (rows : List Row) :
    (runBatchA audit 0 rows).2 = pendingIndicesFrom 0 rows ∧
    ((∀ r ∈ rows, eligibleRow r = false) → (runBatchA audit 0 rows).2 = []) :=
  ⟨runBatchA_snd audit rows 0,
   fun h => (runBatchA_snd audit rows 0).trans
     (pendingIndicesFrom_nil_of_done rows h 0)⟩

theorem batch_audits_pending_rows_in_order_witness :
    (runBatchA audit0 0 [rowDone]).2 = pendingIndicesFrom 0 [rowDone] ∧
    (runBatchA audit0 0 [rowDone]).2 = [] :=
  ⟨(batch_audits_pending_rows_in_order audit0 [rowDone]).1,
   (batch_audits_pending_rows_in_order audit0 [rowDone]).2 (by decide)⟩

theorem runBatchA_fst_length (audit : Nat → Except String (Nat × Nat))
    (rows : List Row) : ∀ n : Nat,
      (runBatchA audit n rows).1.length = rows.length := by
  induction rows with
  | nil => intro n; rfl
  | cons row rest ih =>
    intro n
    simp [runBatchA, ih]

theorem runBatchA_fst_get (audit : Nat → Except String (Nat × Nat))
    (rows : List Row) : ∀ (n i : Nat),
      (runBatchA audit n rows).1[i]? = (rows[i]?).map (stepRow audit (n + i)) := by
  induction rows with
  | nil => intro n i; simp [runBatchA]
  | cons row rest ih =>
    intro n i
    cases i with
    | zero => simp [runBatchA]
    | succ j =>
      have hn : n + (j + 1) = (n + 1) + j := by omega
      rw [hn]
      simp only [runBatchA, List.getElem?_cons_succ]
      exact ih (n + 1) j

/-- C4: after a failed range, the orchestrator leaves that row untouched
(third conjunct: an eligible row whose audit throws is returned
unchanged, so its counts stay blank), still processes every row of the
list exactly as its own audit outcome dictates (second conjunct), writes
back the full list (first conjunct: the length is preserved), and the
rows are persisted against the header list captured up front, so every
written record keeps the original column order (fourth conjunct). -/
theorem batch_failure_isolation (audit : Nat → Except String (Nat × Nat))
    (rows : List Row) :
    ((runBatchA audit 0 rows).1.length = rows.length) ∧
    (∀ i : Nat, (runBatchA audit 0 rows).1[i]? =
        (rows[i]?).map (stepRow audit i)) ∧
    (∀ (i : Nat) (row : Row) (e : String), eligibleRow row = true →
        audit i = .error e → stepRow audit i row = row) ∧
    (∀ (headers : List String) (row : Row),
        (writeRow headers row).map Prod.fst = headers) := by
  refine ⟨runBatchA_fst_length audit rows 0, ?_, ?_, ?_⟩
  · intro i
    have := runBatchA_fst_get audit rows 0 i
    simpa using this
  · intro i row e hel herr
    simp [stepRow, hel, herr]
  · intro headers row
    simp [writeRow, List.map_map, Function.comp_def]

theorem batch_failure_isolation_witness :
    ((runBatchA auditFailAll 0 [rowBlank, rowDone]).1.length =
      ([rowBlank, rowDone] : List Row).length) ∧
    ((runBatchA auditFailAll 0 [rowBlank, rowDone]).1[0]? =
      (([rowBlank, rowDone] : List Row)[0]?).map (stepRow auditFailAll 0)) ∧
    stepRow auditFailAll 0 rowBlank = rowBlank ∧
    (writeRow ["Number", "State"] rowDone).map Prod.fst = ["Number", "State"] :=
  ⟨(batch_failure_isolation auditFailAll [rowBlank, rowDone]).1,
   (batch_failure_isolation auditFailAll [rowBlank, rowDone]).2.1 0,
   (batch_failure_isolation auditFailAll [rowBlank, rowDone]).2.2.1 0 rowBlank
     "network down" (by decide) rfl,
   (batch_failure_isolation auditFailAll [rowBlank, rowDone]).2.2.2
     ["Number", "State"] rowDone⟩

theorem getResults_valid_eq (es ws : List String) :
    (getResults es ws).valid = es.isEmpty := rfl

theorem attachChildren_valid_eq (res : ValidationResult)
    (extraW : List String) (children : List (String × ValidationResult)) :
    (attachChildren res extraW children).valid = res.valid := rfl

theorem attachChildren_errors_eq (res : ValidationResult)
    (extraW : List String) (children : List (String × ValidationResult)) :
    (attachChildren res extraW children).errors = res.errors := rfl

theorem validateContent_valid (env : ValidatorEnv) (size : Nat)
    (doc : XmlDoc) :
    (validateContent env size doc).valid =
      (validateContent env size doc).errors.isEmpty := by
  cases doc <;> rfl

theorem validateUrlGo_valid (env : ValidatorEnv)
    (world : String → FetchOutcome) (rec : Bool) (maxD : Nat) :
    ∀ (fuel depth : Nat) (url : String),
      (validateUrlGo env world rec maxD fuel depth url).valid =
        (validateUrlGo env world rec maxD fuel depth url).errors.isEmpty := by
  intro fuel depth url
  cases fuel with
  | zero => rfl
  | succ f =>
    simp only [validateUrlGo]
    cases world url with
    | fail m => rfl
    | httpError s t => rfl
    | ok size doc =>
      simp only []
      split
      · exact validateContent_valid env size doc
      · split
        · rw [attachChildren_valid_eq, attachChildren_errors_eq]
          exact validateContent_valid env size doc
        · exact validateContent_valid env size doc

/-- C8: the valid flag of every result node is derived from that node's
own errors only — getResults sets it to errors.isEmpty (first conjunct)
and it does not depend on the warnings list (second conjunct); the
walker's attachment of traversed children never revises it, so child
errors cannot influence a parent's flag (third conjunct); consequently
every result validateUrl produces satisfies valid = errors.isEmpty
regardless of its children (fourth conjunct). -/
theorem valid_iff_own_errors_empty :
    (∀ es ws : List String, (getResults es ws).valid = es.isEmpty) ∧
    (∀ es ws ws' : List String,
        (getResults es ws).valid = (getResults es ws').valid) ∧
    (∀ (res : ValidationResult) (extraW : List String)
        (children : List (String × ValidationResult)),
        (attachChildren res extraW children).valid = res.valid) ∧
    (∀ (env : ValidatorEnv) (world : String → FetchOutcome) (rec : Bool)
        (maxD fuel depth : Nat) (url : String),
        (validateUrlGo env world rec maxD fuel depth url).valid =
          (validateUrlGo env world rec maxD fuel depth url).errors.isEmpty) :=
  ⟨fun es ws => getResults_valid_eq es ws,
   fun _ _ _ => rfl,
   fun res extraW children => attachChildren_valid_eq res extraW children,
   fun env world rec maxD fuel depth url =>
     validateUrlGo_valid env world rec maxD fuel depth url⟩

/-- C6 fails on the code: with recursion requested at depth 0 against an
index that lists twelve children, the walker traverses none of them — no
childResults mapping is ever created and no truncation warning appears —
because validateSitemapIndex never exposes the child locations
(childSitemaps stays absent), so the recursion guard in validateUrl is
never satisfied.  This theorem evaluates the code at that input. -/
theorem recursive_fanout_never_traversed :
    idx6Entries.length = 12 ∧
    world6 "http://site/index.xml" =
      .ok 500 (.sitemapIndex (some sitemapNS) idx6Entries) ∧
    (validateUrl env0 world6 true 0 3 "http://site/index.xml").childResults.isNone = true ∧
    (validateUrl env0 world6 true 0 3 "http://site/index.xml").childSitemaps.isNone = true ∧
    (validateUrl env0 world6 true 0 3 "http://site/index.xml").warnings = [] := by
  refine ⟨rfl, rfl, rfl, rfl, rfl⟩

/-- C7 fails on the code: at maxDepth 1 over an index whose two children
are themselves indexes, the result for the root neither lists the
children in childSitemaps (the field is never produced) nor contains any
childResults — no depth-1 document is validated at all, because
validateSitemapIndex never exposes child locations.  This theorem
evaluates the code at that input. -/
theorem depth_walker_never_lists_children :
    world7 "http://site/root.xml" =
      .ok 300 (.sitemapIndex (some sitemapNS)
        [⟨some "http://site/sub0.xml", none⟩,
         ⟨some "http://site/sub1.xml", none⟩]) ∧
    (validateUrl env0 world7 true 0 1 "http://site/root.xml").childSitemaps.isNone = true ∧
    (validateUrl env0 world7 true 0 1 "http://site/root.xml").childResults.isNone = true ∧
    (validateUrl env0 world7 true 0 1 "http://site/root.xml").valid = true := by
  refine ⟨rfl, rfl, rfl, rfl⟩

theorem mem_of_includes_amp (l : List Char)
    (h : includesAux ['&'] l = true) : '&' ∈ l := by
  induction l with
  | nil => simp [includesAux] at h
  | cons c rest ih =>
    simp only [includesAux, Bool.or_eq_true] at h
    rcases h with h1 | h1
    · simp [List.isPrefixOf] at h1
      rw [← h1]
      exact List.mem_cons_self _ _
    · exact List.mem_cons_of_mem c (ih h1)

theorem ampEsc_present_of_no_bare (l : List Char) (h : bareAmpAux l = false)
    (hm : '&' ∈ l) : includesAux ("&amp;".data) l = true := by
  induction l with
  | nil => simp at hm
  | cons c rest ih =>
    rw [bareAmpAux, Bool.or_eq_false_iff] at h
    obtain ⟨h1, h2⟩ := h
    by_cases hc : c = '&'
    · subst hc
      have hpref : (['a', 'm', 'p', ';'].isPrefixOf rest) = true := by
        cases hX : (['a', 'm', 'p', ';'].isPrefixOf rest) with
        | false => rw [hX] at h1; simp at h1
        | true => rfl
      show (("&amp;".data).isPrefixOf ('&' :: rest) ||
        includesAux ("&amp;".data) rest) = true
      simp only [Bool.or_eq_true]
      left
      show ((['&', 'a', 'm', 'p', ';'] : List Char).isPrefixOf ('&' :: rest)) = true
      simp only [List.isPrefixOf, hpref]
      simp
    · have hm' : '&' ∈ rest := by
        rcases List.mem_cons.mp hm with h' | h'
        · exact absurd h'.symm hc
        · exact h'
      have hr := ih h2 hm'
      show (("&amp;".data).isPrefixOf (c :: rest) ||
        includesAux ("&amp;".data) rest) = true
      simp only [Bool.or_eq_true]
      right
      exact hr

theorem hasBareAmp_false_no_ampError (i : Nat) (loc : String)
    (h : hasBareAmp loc = false) : ampError i loc = [] := by
  have hcond : (jsIncludes loc "&" && !(jsIncludes loc "&amp;")) = false := by
    cases hA : jsIncludes loc "&" with
    | false => simp
    | true =>
      have hmem : '&' ∈ loc.data := mem_of_includes_amp loc.data hA
      have h2 : includesAux ("&amp;".data) loc.data = true :=
        ampEsc_present_of_no_bare loc.data h hmem
      have h3 : jsIncludes loc "&amp;" = true := h2
      simp [h3]
  simp [ampError, hcond]

/-- C9 counterexample: the location locC9 contains a bare ampersand (the
one before the final z), yet because the string also contains one escaped
ampersand the code's check loc.includes of the ampersand and not
loc.includes of the escape records nothing — the validator returns no
errors at all for a url set holding this location, contradicting the
claim that such a location must receive an unescaped-ampersand error. -/
theorem unescaped_amp_counterexample :
    hasBareAmp locC9 = true ∧
    ampError 0 locC9 = [] ∧
    (validateUrlset env0 [] (some sitemapNS) [entryC9]).errors = [] := by
  refine ⟨rfl, rfl, rfl⟩

/-- C9 (amended): for a url-set entry with a present, nonempty location,
the recorded errors are exactly the URL-format, space and ampersand
checks, and the unescaped-ampersand error fires iff the location contains
an ampersand and does not contain the escape sequence anywhere — so one
escaped ampersand suppresses the error even when bare ampersands exist;
when the location has no bare ampersand at all, no such error is
recorded. -/
theorem unescaped_amp_code_condition (env : ValidatorEnv) (i : Nat)
    (seen : List String) (u : UrlEntry) (loc : String)
    (hloc : u.loc = some loc) (hne : loc.data.isEmpty = false) :
    (urlEntryChecks env i seen u).1 =
      fmtError env i loc ++ spaceError i loc ++ ampError i loc ∧
    (ampError i loc ≠ [] ↔
      (jsIncludes loc "&" = true ∧ jsIncludes loc "&amp;" = false)) ∧
    (hasBareAmp loc = false → ampError i loc = []) := by
  refine ⟨?_, ?_, fun h => hasBareAmp_false_no_ampError i loc h⟩
  · simp [urlEntryChecks, jsMissing, hloc, hne]
  · cases hA : jsIncludes loc "&" <;> cases hB : jsIncludes loc "&amp;" <;>
      simp [ampError, hA, hB]

theorem unescaped_amp_code_condition_witness :
    (urlEntryChecks env0 0 [] uC9w).1 =
      fmtError env0 0 locC9w ++ spaceError 0 locC9w ++ ampError 0 locC9w ∧
    (ampError 0 locC9w ≠ [] ↔
      (jsIncludes locC9w "&" = true ∧ jsIncludes locC9w "&amp;" = false)) ∧
    (hasBareAmp locC9w = false → ampError 0 locC9w = []) :=
  unescaped_amp_code_condition env0 0 [] uC9w locC9w rfl rfl

/-- C10: a url-set entry without a usable loc records exactly the
missing-loc error, no warnings, and leaves the duplicate-detection set
unchanged; in the surrounding fold the remaining entries are processed
with the very same set (and the shifted index), so the entry can neither
trigger nor suppress any duplicate warning for other entries, and
contributes no format, space, ampersand, lastmod, changefreq or priority
messages. -/
theorem missing_loc_short_circuit (env : ValidatorEnv) (i : Nat)
    (seen : List String) (u : UrlEntry) (rest : List UrlEntry)
    (h : jsMissing u.loc = true) :
    urlEntryChecks env i seen u = ([missingLocMsg i], [], seen) ∧
    urlsetEntriesFold env i seen (u :: rest) =
      (missingLocMsg i :: (urlsetEntriesFold env (i + 1) seen rest).1,
       (urlsetEntriesFold env (i + 1) seen rest).2) := by
  have h1 : urlEntryChecks env i seen u = ([missingLocMsg i], [], seen) := by
    simp [urlEntryChecks, h]
  refine ⟨h1, ?_⟩
  simp only [urlsetEntriesFold, h1]
  simp

theorem missing_loc_short_circuit_witness :
    urlEntryChecks env0 0 [] entryC10 = ([missingLocMsg 0], [], []) ∧
    urlsetEntriesFold env0 0 [] (entryC10 :: [uC9w]) =
      (missingLocMsg 0 :: (urlsetEntriesFold env0 (0 + 1) [] [uC9w]).1,
       (urlsetEntriesFold env0 (0 + 1) [] [uC9w]).2) :=
  missing_loc_short_circuit env0 0 [] entryC10 [uC9w] rfl

end SitemapAudit
